import Mathlib

/-!
Verification of the beat-grid analysis pipeline
(`src/server/python/analyze_beatgrid.py` and
`src/server/python/analyze_beatgrid_v2.py`).

Numeric values (Python floats) are modelled as rationals (`ℚ`); the only
irrational operation in the source, `numpy.std`'s square root, is modelled
with `Real.sqrt`.  File paths are lists of characters; the file system is a
list of present paths.  Fallible steps (the external decoder process, the
analysis engine) are modelled by explicit outcome parameters, so each exit
path of the Python code corresponds to a case of the Lean model.
-/

namespace BeatGrid

/-! ## Definitions -/

/-- Python's float modulo `x % m`: for `m > 0` the result is
`x - m * ⌊x / m⌋`, which lies in `[0, m)`. -/
def pymod (x m : ℚ) : ℚ := x - m * ⌊x / m⌋

/-- Grid phase estimator, from `analyze` lines 91-99 of
`analyze_beatgrid.py` (identically `analyze_v2` lines 95-99 of
`analyze_beatgrid_v2.py`):

    offset = 0.0
    if bpm and bpm > 0 and beat_times:
        beat_period = 60.0 / bpm
        raw = float(beat_times[0])
        offset = float(raw % beat_period)
        if abs(offset) < 0.02:
            offset = 0.0

Python truthiness of the float `bpm` (`bpm and ...`) is `bpm ≠ 0`, and
truthiness of the list `beat_times` is non-emptiness. -/
def gridOffset (bpm : Option ℚ) (beatTimes : List ℚ) : ℚ :=
  match bpm, beatTimes with
  | some b, t :: _ =>
      if b ≠ 0 ∧ 0 < b then
        let beatPeriod := 60 / b
        let raw := pymod t beatPeriod
        if |raw| < 0.02 then 0 else raw
      else 0
  | _, _ => 0

/-- `numpy.diff`: consecutive differences of a list. -/
def diffs (l : List ℚ) : List ℚ := List.zipWith (fun a b => b - a) l l.tail

/-- `numpy.mean`: arithmetic mean (0 on the empty list, as `x / 0 = 0`). -/
def mean (l : List ℚ) : ℚ := l.sum / l.length

/-- `numpy.std` squared: population variance, mean of squared deviations. -/
def variance (l : List ℚ) : ℚ := mean (l.map (fun x => (x - mean l) ^ 2))

/-- `numpy.std`: population standard deviation. -/
noncomputable def std (l : List ℚ) : ℝ := Real.sqrt (variance l)

/-- `numpy.clip x lo hi`. -/
def clip (x lo hi : ℝ) : ℝ := min (max x lo) hi

/-- Stability scorer, from `analyze` lines 101-108 of `analyze_beatgrid.py`
(identically `analyze_v2` lines 101-108 of `analyze_beatgrid_v2.py`):

    stability = None
    if len(beat_times) >= 3:
        diffs = np.diff(beat_times)
        if np.all(diffs > 0):
            stability = float(
                np.clip(1.0 - (np.std(diffs) / (np.mean(diffs) + 1e-6)), 0.0, 1.0)
            )
-/
noncomputable def confidence (beatTimes : List ℚ) : Option ℝ :=
  if 3 ≤ beatTimes.length then
    if ∀ d ∈ diffs beatTimes, 0 < d then
      some (clip
        (1 - std (diffs beatTimes) / ((mean (diffs beatTimes) + 1e-6 : ℚ) : ℝ)) 0 1)
    else none
  else none

/-- Python `range(0, stop, step)` for `step ≥ 1`: the multiples of `step`
strictly below `stop`, in increasing order. -/
def pyRangeStep (stop step : ℕ) : List ℕ :=
  (List.range ((stop + step - 1) / step)).map (· * step)

/-- `_infer_downbeats_from_beats` from `analyze_beatgrid_v2.py` lines 57-62:

    if not beat_times or beats_per_bar < 1:
        return []
    return [beat_times[i] for i in range(0, len(beat_times), beats_per_bar)]
-/
def infer_downbeats_from_beats (beat_times : List ℚ) (beats_per_bar : ℤ) : List ℚ :=
  if beat_times = [] ∨ beats_per_bar < 1 then []
  else (pyRangeStep beat_times.length beats_per_bar.toNat).filterMap
    (fun i => beat_times[i]?)

/-- Every `step`-th element of a list, starting at the head. -/
def everyNth (step : ℕ) : List ℚ → List ℚ
  | [] => []
  | x :: xs => x :: everyNth step (xs.drop (step - 1))
termination_by l => l.length
decreasing_by simp only [List.length_drop, List.length_cons]; omega

/-! ### File-system model for the audio normalizer

Paths are lists of characters; the file system is the list of paths
currently present on disk.  The external decoder process is modelled by an
explicit outcome: normal exit, non-zero exit with captured stderr
(`subprocess.CalledProcessError`), or failure to spawn the executable at
all (`FileNotFoundError`, raised by `subprocess.run` when the binary does
not exist). -/

/-- A file path, as a list of characters. -/
abbrev Path := List Char

/-- The set of files on disk, as a list of paths. -/
abbrev FS := List Path

/-- `os.path.splitext(p)[1]`: the extension of the final path component,
empty when the basename has no dot after its leading dots. -/
def extOf (p : Path) : Path :=
  let base := (p.reverse.takeWhile (fun c => c != '/')).reverse
  let stem := base.dropWhile (fun c => c == '.')
  if stem.contains '.' then
    '.' :: (stem.reverse.takeWhile (fun c => c != '.')).reverse
  else []

/-- `os.path.splitext(input_path)[1].lower() == ".wav"`. -/
def isWavExt (p : Path) : Bool :=
  (extOf p).map Char.toLower == ['.', 'w', 'a', 'v']

/-- Outcome of running the external decoder process. -/
inductive FfmpegOutcome where
  | success
  | exitNonzero (stderr : String)
  | spawnFailure (msg : String)
deriving DecidableEq

/-- The Python exceptions that can escape one analysis invocation. -/
inductive PyExc where
  | runtimeError (msg : String)
  | fileNotFoundError (msg : String)
  | analysisError (msg : String)
deriving DecidableEq

/-- `_decode_to_wav` from `analyze_beatgrid.py` lines 22-67 and
`analyze_beatgrid_v2.py` lines 22-54 (the two differ only in the error
message prefix, passed here as `errPre`):

    ext = os.path.splitext(input_path)[1].lower()
    if ext == ".wav":
        return input_path, False
    tmp_fd, tmp_path = tempfile.mkstemp(suffix=".wav")   -- creates tmp
    try:
        subprocess.run(cmd, ..., check=True)
        return tmp_path, True
    except subprocess.CalledProcessError as e:
        os.remove(tmp_path)
        raise RuntimeError(errPre + e.stderr)

A `FileNotFoundError` from `subprocess.run` (decoder binary absent) is not
caught, so it propagates with the temporary file still on disk.
Result: decode outcome, resulting file system, decoder-invoked flag. -/
def decode_to_wav (errPre : String) (input tmp : Path) (ffmpeg : FfmpegOutcome)
    (fs : FS) : Except PyExc (Path × Bool) × FS × Bool :=
  if isWavExt input then (.ok (input, false), fs, false)
  else
    let fs1 := tmp :: fs
    match ffmpeg with
    | .success => (.ok (tmp, true), fs1, true)
    | .exitNonzero stderr =>
        (.error (.runtimeError (errPre ++ stderr)), fs1.erase tmp, true)
    | .spawnFailure msg => (.error (.fileNotFoundError msg), fs1, true)

/-- Raw output of the external analysis engine: a tempo estimate (absent
when `librosa` returns `None`) and beat timestamps in seconds. -/
structure RawAnalysis where
  tempo : Option ℚ
  beatTimes : List ℚ
deriving DecidableEq

/-- `numpy.round(x, 1)`: round to one decimal, ties to even. -/
def roundHalfEven (x : ℚ) : ℤ :=
  let f := ⌊x⌋
  let r := x - f
  if r < 1/2 then f
  else if 1/2 < r then f + 1
  else if 2 ∣ f then f else f + 1

/-- `float(np.round(float(tempo), 1))`. -/
def round1 (q : ℚ) : ℚ := (roundHalfEven (q * 10) : ℚ) / 10

/-- The final result record assembled by `analyze` / `analyze_v2`
(lines 110-118 of each file).  `downbeatTimesSec` is `none` for variant 1,
which emits no such field. -/
structure Grid where
  bpm : Option ℚ
  gridOffsetSec : ℚ
  beatsPerBar : ℤ
  beatTimesSec : List ℚ
  downbeatTimesSec : Option (List ℚ)
  confidence : Option ℝ
  analyzer : String

/-- Result assembly of `analyze` in `analyze_beatgrid.py`, lines 87-117:
bpm rounding, grid offset, fixed `beatsPerBar = 4`, stability confidence,
variant tag. -/
noncomputable def assembleGrid_v1 (raw : RawAnalysis) : Grid :=
  let bpm := raw.tempo.map round1
  { bpm := bpm
    gridOffsetSec := gridOffset bpm raw.beatTimes
    beatsPerBar := 4
    beatTimesSec := raw.beatTimes
    downbeatTimesSec := none
    confidence := confidence raw.beatTimes
    analyzer := "librosa_beat_track_v1" }

/-- Result assembly of `analyze_v2` in `analyze_beatgrid_v2.py`,
lines 87-118: additionally the heuristic downbeats. -/
noncomputable def assembleGrid_v2 (raw : RawAnalysis) : Grid :=
  let bpm := raw.tempo.map round1
  { bpm := bpm
    gridOffsetSec := gridOffset bpm raw.beatTimes
    beatsPerBar := 4
    beatTimesSec := raw.beatTimes
    downbeatTimesSec := some (infer_downbeats_from_beats raw.beatTimes 4)
    confidence := confidence raw.beatTimes
    analyzer := "librosa_v2_beats_downbeats" }

/-- One invocation of `analyze` / `analyze_v2` (lines 70-124 of each file):
decode, then the `try` body (engine call and result assembly, both of which
may raise), then the `finally` clause deleting the wav file when the handle
is owned.  `assemble` is the pure result assembly applied to the engine
output; `engine` is the outcome of the external analysis call. -/
def analyzeModel {G : Type} (assemble : RawAnalysis → G) (errPre : String)
    (input tmp : Path) (ffmpeg : FfmpegOutcome)
    (engine : Except String RawAnalysis) (fs : FS) : Except PyExc G × FS :=
  match decode_to_wav errPre input tmp ffmpeg fs with
  | (.error e, fs1, _) => (.error e, fs1)
  | (.ok (wavPath, shouldDelete), fs1, _) =>
      let body : Except PyExc G :=
        match engine with
        | .error m => .error (.analysisError m)
        | .ok raw => .ok (assemble raw)
      (body, if shouldDelete then fs1.erase wavPath else fs1)

/-- The structured error record written to stderr on failure. -/
structure ErrorResult where
  error : String
deriving DecidableEq

/-- What one `main` invocation externally produces. -/
structure MainOutput (G : Type) where
  exitCode : ℕ
  stdout : Option G
  stderrJson : Option ErrorResult
deriving DecidableEq

/-- Python `str(e)` for the modelled exceptions. -/
def excMessage : PyExc → String
  | .runtimeError m => m
  | .fileNotFoundError m => m
  | .analysisError m => m

/-- `main` from lines 127-138 of each file: print the result as JSON on
success; on any exception write the structured error record to stderr and
exit 1. -/
def mainModel {G : Type} (assemble : RawAnalysis → G) (errPre : String)
    (input tmp : Path) (ffmpeg : FfmpegOutcome)
    (engine : Except String RawAnalysis) (fs : FS) : MainOutput G :=
  match (analyzeModel assemble errPre input tmp ffmpeg engine fs).1 with
  | .ok g => ⟨0, some g, none⟩
  | .error e => ⟨1, none, some ⟨excMessage e⟩⟩

/-! ## Helper lemmas -/

lemma pymod_eq_mul_fract (x m : ℚ) (hm : m ≠ 0) :
    pymod x m = m * Int.fract (x / m) := by
  unfold pymod Int.fract
  field_simp

lemma pymod_nonneg (x m : ℚ) (hm : 0 < m) : 0 ≤ pymod x m := by
  rw [pymod_eq_mul_fract x m hm.ne']
  exact mul_nonneg hm.le (Int.fract_nonneg _)

lemma pymod_lt (x m : ℚ) (hm : 0 < m) : pymod x m < m := by
  rw [pymod_eq_mul_fract x m hm.ne']
  calc m * Int.fract (x / m) < m * 1 :=
        (mul_lt_mul_left hm).mpr (Int.fract_lt_one _)
    _ = m := mul_one m

lemma clip_unit_mem (x : ℝ) : 0 ≤ clip x 0 1 ∧ clip x 0 1 ≤ 1 :=
  ⟨le_min (le_max_right _ _) zero_le_one, min_le_right _ _⟩

lemma lt_ceilDiv_iff (k stop step : ℕ) (hs : 1 ≤ step) :
    k < (stop + step - 1) / step ↔ k * step < stop := by
  rw [Nat.lt_iff_add_one_le, Nat.le_div_iff_mul_le hs, Nat.succ_mul]
  set a := k * step with ha
  omega

lemma pyRangeStep_getElem (stop step k : ℕ) (hs : 1 ≤ step) :
    (pyRangeStep stop step)[k]? =
      if k * step < stop then some (k * step) else none := by
  unfold pyRangeStep
  rw [List.getElem?_map]
  by_cases hk : k < (stop + step - 1) / step
  · rw [List.getElem?_range hk, if_pos ((lt_ceilDiv_iff k stop step hs).mp hk)]
    rfl
  · rw [List.getElem?_eq_none (by simpa using hk),
      if_neg (fun h => hk ((lt_ceilDiv_iff k stop step hs).mpr h))]
    rfl

lemma mem_pyRangeStep (i stop step : ℕ) (hs : 1 ≤ step)
    (hi : i ∈ pyRangeStep stop step) : i < stop := by
  obtain ⟨k, hk, rfl⟩ := List.mem_map.mp hi
  exact (lt_ceilDiv_iff k stop step hs).mp (List.mem_range.mp hk)

lemma filterMap_getElem?_eq_map (l : List ℚ) :
    ∀ is : List ℕ, (∀ i ∈ is, i < l.length) →
      is.filterMap (fun i => l[i]?) = is.map (fun i => l.getD i 0)
  | [], _ => rfl
  | i :: is, h => by
    have hi : i < l.length := h i (List.mem_cons_self i is)
    have hsome : l[i]? = some (l.getD i 0) := by
      rw [List.getElem?_eq_getElem hi, List.getD_eq_getElem l 0 hi]
    rw [List.filterMap_cons, List.map_cons, hsome]
    exact congrArg _ (filterMap_getElem?_eq_map l is fun j hj => h j (List.mem_cons_of_mem i hj))

lemma infer_downbeats_getElem? (beats : List ℚ) (N : ℤ) (hN : 1 ≤ N) (k : ℕ) :
    (infer_downbeats_from_beats beats N)[k]? = beats[k * N.toNat]? := by
  unfold infer_downbeats_from_beats
  have hstep : 1 ≤ N.toNat := by omega
  by_cases hb : beats = []
  · subst hb
    simp
  · rw [if_neg (by simp [hb]; omega),
      filterMap_getElem?_eq_map beats _
        (fun i hi => mem_pyRangeStep i beats.length N.toNat hstep hi),
      List.getElem?_map, pyRangeStep_getElem beats.length N.toNat k hstep]
    by_cases hk : k * N.toNat < beats.length
    · rw [if_pos hk]
      simp only [Option.map_some']
      rw [List.getElem?_eq_getElem hk, List.getD_eq_getElem beats 0 hk]
    · rw [if_neg hk, List.getElem?_eq_none (not_lt.mp hk)]
      rfl

lemma everyNth_getElem? (step : ℕ) (hs : 1 ≤ step) (k : ℕ) (l : List ℚ) :
    (everyNth step l)[k]? = l[k * step]? := by
  induction k generalizing l with
  | zero =>
    cases l with
    | nil => simp [everyNth]
    | cons x xs => simp [everyNth]
  | succ k IH =>
    cases l with
    | nil => simp [everyNth]
    | cons x xs =>
      rw [everyNth]
      simp only [List.getElem?_cons_succ]
      rw [IH, List.getElem?_drop]
      have h1 : (k + 1) * step = ((step - 1) + k * step) + 1 := by
        rw [Nat.succ_mul]
        omega
      rw [h1, List.getElem?_cons_succ]

lemma everyNth_sublist_aux (step n : ℕ) :
    ∀ l : List ℚ, l.length ≤ n → (everyNth step l).Sublist l := by
  induction n with
  | zero =>
    intro l hl
    rw [List.length_eq_zero.mp (Nat.le_zero.mp hl)]
    simp [everyNth]
  | succ n IH =>
    intro l hl
    cases l with
    | nil => simp [everyNth]
    | cons x xs =>
      rw [everyNth]
      refine List.Sublist.cons₂ x ((IH _ ?_).trans (List.drop_sublist _ _))
      simp only [List.length_cons] at hl
      simp only [List.length_drop]
      omega

lemma everyNth_sublist (step : ℕ) (l : List ℚ) : (everyNth step l).Sublist l :=
  everyNth_sublist_aux step l.length l le_rfl

lemma infer_downbeats_eq_everyNth (beats : List ℚ) (N : ℤ) (hN : 1 ≤ N) :
    infer_downbeats_from_beats beats N = everyNth N.toNat beats :=
  List.ext_getElem? fun k => by
    rw [infer_downbeats_getElem? beats N hN k,
      everyNth_getElem? N.toNat (by omega) k beats]

lemma analyzeModel_fs {G : Type} (assemble : RawAnalysis → G) (ep : String)
    (input tmp : Path) (ffmpeg : FfmpegOutcome)
    (engine : Except String RawAnalysis) (fs : FS) :
    (analyzeModel assemble ep input tmp ffmpeg engine fs).2 =
      if isWavExt input then fs
      else
        match ffmpeg with
        | .success => (tmp :: fs).erase tmp
        | .exitNonzero _ => (tmp :: fs).erase tmp
        | .spawnFailure _ => tmp :: fs := by
  unfold analyzeModel decode_to_wav
  by_cases hw : isWavExt input
  · rw [if_pos hw, if_pos hw]
    rfl
  · rw [if_neg hw, if_neg hw]
    cases ffmpeg <;> rfl

lemma analyzeModel_ok {G : Type} (assemble : RawAnalysis → G) (ep : String)
    (input tmp : Path) (ffmpeg : FfmpegOutcome) (raw : RawAnalysis) (fs : FS)
    (g : G)
    (h : (analyzeModel assemble ep input tmp ffmpeg (.ok raw) fs).1 = .ok g) :
    g = assemble raw := by
  unfold analyzeModel at h
  rcases hd : decode_to_wav ep input tmp ffmpeg fs with ⟨res, fs1, flag⟩
  rw [hd] at h
  cases res with
  | error e => simp at h
  | ok pr =>
    rcases pr with ⟨wp, sd⟩
    simp at h
    exact h.symm

/-! ## Claims -/

/-- C1: for every bpm strictly greater than 0 and every non-empty
`beatTimes`, the grid phase estimator's offset satisfies
`0 ≤ offset < 60 / bpm`; and for every bpm that is null (`none`) or
non-positive, the offset equals `0`. -/
theorem gridOffset_range_and_default
    (b t : ℚ) (rest : List ℚ) (ob : Option ℚ) (beats : List ℚ) :
    (0 < b →
      0 ≤ gridOffset (some b) (t :: rest) ∧
        gridOffset (some b) (t :: rest) < 60 / b) ∧
    ((ob = none ∨ ∃ b0, ob = some b0 ∧ b0 ≤ 0) → gridOffset ob beats = 0) := by
  constructor
  · intro hb
    have hper : 0 < 60 / b := by positivity
    simp only [gridOffset, if_pos (And.intro hb.ne' hb)]
    split
    · exact ⟨le_refl 0, hper⟩
    · exact ⟨pymod_nonneg _ _ hper, pymod_lt _ _ hper⟩
  · rintro (rfl | ⟨b0, rfl, hb0⟩)
    · rfl
    · cases beats with
      | nil => rfl
      | cons t0 rest0 =>
        simp only [gridOffset]
        rw [if_neg]
        rintro ⟨-, hpos⟩
        exact absurd hpos (not_lt.mpr hb0)

/-- Witness for C1 at bpm = 120, first beat 1/2, and a null bpm. -/
theorem gridOffset_range_and_default_witness :
    (0 ≤ gridOffset (some 120) [1/2] ∧ gridOffset (some 120) [1/2] < 60 / 120)
      ∧ gridOffset none [1, 2] = 0 :=
  ⟨(gridOffset_range_and_default 120 (1/2) [] none [1, 2]).1 (by norm_num),
   (gridOffset_range_and_default 120 (1/2) [] none [1, 2]).2 (Or.inl rfl)⟩

/-- C2: for bpm > 0 and non-empty beats, the estimator computes
`beatPeriod = 60 / bpm`, `raw = beatTimes[0] mod beatPeriod` (Python float
modulo), and returns 0 when `|raw| < 0.02` and `raw` otherwise. -/
theorem gridOffset_formula (b t : ℚ) (rest : List ℚ) (hb : 0 < b) :
    gridOffset (some b) (t :: rest) =
      if |pymod t (60 / b)| < 0.02 then 0 else pymod t (60 / b) := by
  simp only [gridOffset, if_pos (And.intro hb.ne' hb)]

/-- Witness for C2: bpm = 128, first beat 0.015 s (spec Scenario B);
`0.015 mod 0.46875 = 0.015 < 0.02` so the offset snaps to 0. -/
theorem gridOffset_formula_witness :
    gridOffset (some 128) [15/1000, 483/1000, 951/1000] = 0 := by
  rw [gridOffset_formula 128 (15/1000) [483/1000, 951/1000] (by norm_num)]
  norm_num [pymod, abs_lt]

/-- C3: the confidence is null exactly when fewer than 3 beats are present or
some consecutive inter-beat interval is non-positive; otherwise it equals
`clip (1 - std(diffs) / (mean(diffs) + 1e-6)) 0 1`, and any non-null
confidence lies in `[0, 1]`. -/
theorem confidence_spec (beats : List ℚ) :
    (confidence beats = none ↔
      beats.length < 3 ∨ ∃ d ∈ diffs beats, d ≤ 0) ∧
    (3 ≤ beats.length → (∀ d ∈ diffs beats, 0 < d) →
      confidence beats =
        some (clip
          (1 - std (diffs beats) / ((mean (diffs beats) + 1e-6 : ℚ) : ℝ)) 0 1)) ∧
    (∀ c : ℝ, confidence beats = some c → 0 ≤ c ∧ c ≤ 1) := by
  unfold confidence
  split_ifs with h3 hall
  · refine ⟨?_, fun _ _ => rfl, ?_⟩
    · simp only [reduceCtorEq, false_iff]
      push_neg
      exact ⟨h3, hall⟩
    · rintro c hc
      rw [Option.some_inj] at hc
      rw [← hc]
      exact clip_unit_mem _
  · push_neg at hall
    obtain ⟨d, hd, hdle⟩ := hall
    refine ⟨?_, fun _ h => absurd (h d hd) (not_lt.mpr hdle), by simp⟩
    simp only [true_iff]
    exact Or.inr ⟨d, hd, hdle⟩
  · exact ⟨by simp [not_le.mp h3], fun h => absurd h h3, by simp⟩

/-- Witness for C3 at beats `[0, 1, 2]`: three beats, positive intervals. -/
theorem confidence_spec_witness :
    confidence [0, 1, 2] =
      some (clip
        (1 - std (diffs [0, 1, 2]) / ((mean (diffs [0, 1, 2]) + 1e-6 : ℚ) : ℝ))
        0 1) :=
  (confidence_spec [0, 1, 2]).2.1 (by decide)
    (by norm_num [diffs, List.zipWith])

/-- C4: the downbeat inferrer returns exactly the beats at indices
`0, N, 2N, …`, an order-preserving subsequence of the beat list, and the
empty list when the beat list is empty or `beatsPerBar < 1`. -/
theorem infer_downbeats_spec (beats : List ℚ) (N : ℤ) :
    (1 ≤ N → ∀ k : ℕ,
      (infer_downbeats_from_beats beats N)[k]? = beats[k * N.toNat]?) ∧
    (infer_downbeats_from_beats beats N).Sublist beats ∧
    ((beats = [] ∨ N < 1) → infer_downbeats_from_beats beats N = []) := by
  refine ⟨fun hN k => infer_downbeats_getElem? beats N hN k, ?_, fun h => ?_⟩
  · by_cases h : beats = [] ∨ N < 1
    · rw [infer_downbeats_from_beats, if_pos h]
      exact List.nil_sublist _
    · push_neg at h
      rw [infer_downbeats_eq_everyNth beats N h.2]
      exact everyNth_sublist _ _
  · rw [infer_downbeats_from_beats, if_pos h]

/-- Witness for C4: nine beats with `beatsPerBar = 4` (spec Scenario C), and
an empty beat list. -/
theorem infer_downbeats_spec_witness :
    (infer_downbeats_from_beats [1, 2, 3, 4, 5, 6, 7, 8, 9] 4)[1]? =
      ([1, 2, 3, 4, 5, 6, 7, 8, 9] : List ℚ)[1 * (4 : ℤ).toNat]? ∧
    infer_downbeats_from_beats [] 4 = [] :=
  ⟨(infer_downbeats_spec [1, 2, 3, 4, 5, 6, 7, 8, 9] 4).1 (by norm_num) 1,
   (infer_downbeats_spec [] 4).2.2 (Or.inl rfl)⟩

/-- C5 (amended): on every exit path in which the decoder executable could
be spawned — success, analysis failure, or decoder non-zero exit — the
owned temporary file is gone afterwards, and every pre-existing file (in
particular the not-owned input) survives; when the decoder binary cannot be
spawned, the `FileNotFoundError` escapes the `except` clause and the fresh
temporary file leaks. -/
theorem cleanup_on_exit {G : Type} (assemble : RawAnalysis → G) (ep : String)
    (input tmp : Path) (ffmpeg : FfmpegOutcome)
    (engine : Except String RawAnalysis) (fs : FS) (hfresh : tmp ∉ fs) :
    ((isWavExt input = true ∨ ∀ m, ffmpeg ≠ .spawnFailure m) →
      tmp ∉ (analyzeModel assemble ep input tmp ffmpeg engine fs).2) ∧
    ∀ p ∈ fs, p ∈ (analyzeModel assemble ep input tmp ffmpeg engine fs).2 := by
  rw [analyzeModel_fs]
  by_cases hw : isWavExt input
  · rw [if_pos hw]
    exact ⟨fun _ => hfresh, fun p hp => hp⟩
  · rw [if_neg hw]
    cases ffmpeg with
    | success =>
      rw [List.erase_cons_head]
      exact ⟨fun _ => hfresh, fun p hp => hp⟩
    | exitNonzero stderr =>
      rw [List.erase_cons_head]
      exact ⟨fun _ => hfresh, fun p hp => hp⟩
    | spawnFailure m =>
      refine ⟨fun h => ?_, fun p hp => List.mem_cons_of_mem tmp hp⟩
      rcases h with h | h
      · exact absurd h (by simpa using hw)
      · exact absurd rfl (h m)

/-- Witness for C5 (amended): decoder exits non-zero on an mp3 input; the
temporary file is not present afterwards. -/
theorem cleanup_on_exit_witness :
    ['t'] ∉ (analyzeModel (fun _ => (0 : ℕ)) "pre: " ['a', '.', 'm', 'p', '3']
        ['t'] (.exitNonzero "boom") (.ok ⟨none, []⟩)
        [['a', '.', 'm', 'p', '3']]).2 :=
  (cleanup_on_exit (fun _ => (0 : ℕ)) "pre: " ['a', '.', 'm', 'p', '3'] ['t']
      (.exitNonzero "boom") (.ok ⟨none, []⟩) [['a', '.', 'm', 'p', '3']]
      (by decide)).1
    (Or.inr fun m h => FfmpegOutcome.noConfusion h)

/-- Counterexample to C5 as stated: when the decoder binary cannot be
spawned (`subprocess.run` raises `FileNotFoundError`, which the
`except subprocess.CalledProcessError` clause does not catch and which is
raised before the `try/finally` of `analyze` is entered), the invocation
fails — a decode failure — yet the freshly created temporary file is still
on disk afterwards. -/
theorem cleanup_spawn_leak :
    (analyzeModel (fun _ => (0 : ℕ)) "pre: " ['a', '.', 'm', 'p', '3']
        ['t', 'm', 'p'] (.spawnFailure "ffmpeg missing") (.ok ⟨none, []⟩)
        []).1 = .error (.fileNotFoundError "ffmpeg missing") ∧
    ['t', 'm', 'p'] ∈ (analyzeModel (fun _ => (0 : ℕ)) "pre: "
        ['a', '.', 'm', 'p', '3'] ['t', 'm', 'p']
        (.spawnFailure "ffmpeg missing") (.ok ⟨none, []⟩) []).2 := by
  exact ⟨rfl, by decide⟩

/-- C6: when the decoder process exits non-zero, the normalizer deletes the
partially written temporary file and fails with a decode error whose
message carries the decoder's captured stderr. -/
theorem decode_nonzero_exit (ep : String) (input tmp : Path) (stderr : String)
    (fs : FS) (hwav : isWavExt input = false) (hfresh : tmp ∉ fs) :
    (decode_to_wav ep input tmp (.exitNonzero stderr) fs).1 =
      .error (.runtimeError (ep ++ stderr)) ∧
    tmp ∉ (decode_to_wav ep input tmp (.exitNonzero stderr) fs).2.1 ∧
    ∃ s, ep ++ stderr = s ++ stderr := by
  unfold decode_to_wav
  rw [hwav]
  simp only [Bool.false_eq_true, if_false]
  exact ⟨trivial, by rw [List.erase_cons_head]; exact hfresh, ep, rfl⟩

/-- Witness for C6: an mp3 input, decoder exits non-zero with stderr "boom". -/
theorem decode_nonzero_exit_witness :
    (decode_to_wav "pre: " ['a', '.', 'm', 'p', '3'] ['t'] (.exitNonzero "boom")
        [['a', '.', 'm', 'p', '3']]).1 =
      .error (.runtimeError ("pre: " ++ "boom")) ∧
    ['t'] ∉ (decode_to_wav "pre: " ['a', '.', 'm', 'p', '3'] ['t']
        (.exitNonzero "boom") [['a', '.', 'm', 'p', '3']]).2.1 ∧
    ∃ s, "pre: " ++ "boom" = s ++ "boom" :=
  decode_nonzero_exit "pre: " ['a', '.', 'm', 'p', '3'] ['t'] "boom"
    [['a', '.', 'm', 'p', '3']] (by decide) (by decide)

/-- C7: every failure of the pipeline is caught at the outermost boundary
and becomes exactly one structured error record plus exit code 1, with
nothing on the success channel; a success prints the grid and exits 0. -/
theorem main_boundary {G : Type} (assemble : RawAnalysis → G) (ep : String)
    (input tmp : Path) (ffmpeg : FfmpegOutcome)
    (engine : Except String RawAnalysis) (fs : FS) :
    (∀ e, (analyzeModel assemble ep input tmp ffmpeg engine fs).1 = .error e →
      mainModel assemble ep input tmp ffmpeg engine fs =
        ⟨1, none, some ⟨excMessage e⟩⟩) ∧
    ∀ g, (analyzeModel assemble ep input tmp ffmpeg engine fs).1 = .ok g →
      mainModel assemble ep input tmp ffmpeg engine fs = ⟨0, some g, none⟩ := by
  constructor
  · intro e he
    unfold mainModel
    rw [he]
  · intro g hg
    unfold mainModel
    rw [hg]

/-- Witness for C7: a decoder non-zero exit surfaces as exit code 1, no
stdout record, and the structured error on stderr. -/
theorem main_boundary_witness :
    mainModel (fun _ => (0 : ℕ)) "pre: " ['a', '.', 'm', 'p', '3'] ['t']
        (.exitNonzero "boom") (.ok ⟨none, []⟩) [] =
      ⟨1, none, some ⟨excMessage (.runtimeError ("pre: " ++ "boom"))⟩⟩ :=
  (main_boundary (fun _ => (0 : ℕ)) "pre: " ['a', '.', 'm', 'p', '3'] ['t']
      (.exitNonzero "boom") (.ok ⟨none, []⟩) []).1
    (.runtimeError ("pre: " ++ "boom")) rfl

/-- C8: an input whose extension is `.wav` up to case is passed through: the
handle points at the input path, is marked not-owned, the file system is
untouched, and the decoder is not invoked. -/
theorem decode_wav_passthrough (ep : String) (input tmp : Path)
    (ffmpeg : FfmpegOutcome) (fs : FS)
    (h : (extOf input).map Char.toLower = ['.', 'w', 'a', 'v']) :
    decode_to_wav ep input tmp ffmpeg fs = (.ok (input, false), fs, false) := by
  unfold decode_to_wav
  rw [if_pos (show isWavExt input = true from beq_iff_eq.mpr h)]

/-- Witness for C8 at the upper-case path `s.WAV`. -/
theorem decode_wav_passthrough_witness :
    decode_to_wav "pre: " ['s', '.', 'W', 'A', 'V'] ['t'] .success [] =
      (.ok (['s', '.', 'W', 'A', 'V'], false), [], false) :=
  decode_wav_passthrough "pre: " ['s', '.', 'W', 'A', 'V'] ['t'] .success []
    (by decide)

/-- C9: the grid phase estimator, downbeat inferrer and stability scorer
are pure: whenever two invocations — through any decode route, message
prefix, temp path and starting file system — receive the same engine
output, the assembled grids (offset, downbeats and confidence included)
are identical. -/
theorem pure_stages_deterministic
    (p1 : String) (i1 t1 : Path) (f1 : FfmpegOutcome) (fs1 : FS)
    (p2 : String) (i2 t2 : Path) (f2 : FfmpegOutcome) (fs2 : FS)
    (raw : RawAnalysis) (g1 g2 : Grid)
    (h1 : (analyzeModel assembleGrid_v2 p1 i1 t1 f1 (.ok raw) fs1).1 = .ok g1)
    (h2 : (analyzeModel assembleGrid_v2 p2 i2 t2 f2 (.ok raw) fs2).1 = .ok g2) :
    g1 = g2 :=
  (analyzeModel_ok assembleGrid_v2 p1 i1 t1 f1 raw fs1 g1 h1).trans
    (analyzeModel_ok assembleGrid_v2 p2 i2 t2 f2 raw fs2 g2 h2).symm

/-- Witness for C9: one wav-passthrough run and one decode run on the same
engine output produce the same grid. -/
theorem pure_stages_deterministic_witness :
    assembleGrid_v2 ⟨some 120, [1, 2]⟩ = assembleGrid_v2 ⟨some 120, [1, 2]⟩ :=
  pure_stages_deterministic
    "pre1: " ['a', '.', 'w', 'a', 'v'] ['t', '1'] .success []
    "pre2: " ['b', '.', 'm', 'p', '3'] ['t', '2'] .success [['x']]
    ⟨some 120, [1, 2]⟩ _ _ rfl rfl

/-- C10: a present-but-zero engine tempo yields `bpm = some 0` — not null —
in both variants, while the grid offset is still forced to 0; `bpm` is null
exactly when the engine tempo is absent. -/
theorem bpm_zero_edge (beats : List ℚ) (t : Option ℚ) :
    ((assembleGrid_v1 ⟨some 0, beats⟩).bpm = some 0 ∧
      (assembleGrid_v1 ⟨some 0, beats⟩).gridOffsetSec = 0 ∧
      (assembleGrid_v2 ⟨some 0, beats⟩).bpm = some 0 ∧
      (assembleGrid_v2 ⟨some 0, beats⟩).gridOffsetSec = 0) ∧
    (((assembleGrid_v1 ⟨t, beats⟩).bpm = none ↔ t = none) ∧
      ((assembleGrid_v2 ⟨t, beats⟩).bpm = none ↔ t = none)) := by
  have hr : round1 0 = 0 := by
    unfold round1 roundHalfEven
    norm_num
  have hoff : ∀ bs : List ℚ, gridOffset (some 0) bs = 0 := by
    intro bs
    cases bs with
    | nil => rfl
    | cons b bs => simp [gridOffset]
  refine ⟨⟨?_, ?_, ?_, ?_⟩, ?_, ?_⟩ <;>
    simp [assembleGrid_v1, assembleGrid_v2, hr, hoff, Option.map_eq_none']

end BeatGrid
